import Mathlib

/-!
Verification development for the Generative-AI repository.

The repository consists of two instructional scripts: a PyMuPDF catalogue
(`src/PyMuPDF/pymupdf_complete_guide.py`) and a LangChain quickstart
(`src/LangChain/quickstart_basic_agent.py`).  The specification (spec.md)
describes, as an explicit reconstruction, a document-object model with a
mutation log, redaction engine and serializer that the PyMuPDF script's call
sequences would sit on top of; that pipeline is not implemented under src/,
so its definitions below are modelled from the spec.  The LangChain module's
environment-variable check is embedded directly from the source.
-/

/-! ## Geometry primitives -/

/-- Modelled from the spec: (§2, §3) geometry primitives — a point, a pure
value type.  Coordinates are integers. -/
structure Point where
  x : Int
  y : Int
deriving DecidableEq

/-- Modelled from the spec: (§2, §3) a rectangle `(x0, y0)`–`(x1, y1)`. -/
structure Rect where
  x0 : Int
  y0 : Int
  x1 : Int
  y1 : Int
deriving DecidableEq

/-- Modelled from the spec: (§3) an RGB color (style payload of a content item). -/
structure Color where
  r : Int
  g : Int
  b : Int
deriving DecidableEq

/-- Modelled from the spec: (§3) style carried by every content item —
stroke color, fill color, width, opacity ∈ [0,1]. -/
structure Style where
  stroke : Color
  fill : Color
  width : Nat
  opacity : Rat
deriving DecidableEq

/-- Modelled from the spec: (§4.3) full containment of bounding geometry — whole
rectangle `inner` lies inside `outer`. -/
def Rect.containsRect (outer inner : Rect) : Bool :=
  outer.x0 ≤ inner.x0 && inner.x1 ≤ outer.x1 &&
  outer.y0 ≤ inner.y0 && inner.y1 ≤ outer.y1

/-- Modelled from the spec: (§4.3) overlap of bounding geometry — the two
rectangles intersect on a region of positive area. -/
def Rect.intersects (a b : Rect) : Bool :=
  max a.x0 b.x0 < min a.x1 b.x1 && max a.y0 b.y0 < min a.y1 b.y1

/-- Modelled from the spec: (§4.3) the intersection rectangle, used for the
clipped remainder. -/
def Rect.inter (a b : Rect) : Rect :=
  ⟨max a.x0 b.x0, max a.y0 b.y0, min a.x1 b.x1, min a.y1 b.y1⟩

/-! ## Content Object Model -/

/-- Modelled from the spec: (§3) a Content Item is a tagged variant over
TextRun, ShapeStroke, Annotation and RedactionMark.  Each non-mark variant
carries bounding geometry, a style and a variant-specific payload; a shape
or annotation that survived a partial redaction overlap carries the removed
region as an optional clip rectangle (its clipped remainder). -/
inductive ContentItem where
  | textRun (box : Rect) (style : Style) (text : String) (font : String) (size : Nat)
  | shapeStroke (box : Rect) (style : Style) (path : String) (clip : Option Rect)
  | annot (box : Rect) (style : Style) (subtype : String) (clip : Option Rect)
  | redactionMark (box : Rect) (fill : Color)
deriving DecidableEq

/-- Modelled from the spec: (§3) the bounding geometry carried by every content
item. -/
def ContentItem.bbox : ContentItem → Rect
  | .textRun b _ _ _ _ => b
  | .shapeStroke b _ _ _ => b
  | .annot b _ _ _ => b
  | .redactionMark b _ => b

/-- Modelled from the spec: (§3, §4.3) whether the item is a pending
RedactionMark. -/
def ContentItem.isMark : ContentItem → Bool
  | .redactionMark _ _ => true
  | _ => false

/-- Modelled from the spec: (§3, §6) target of a Link — an external URI or a
zero-based internal page index. -/
inductive LinkTarget where
  | uri (address : String)
  | page (index : Nat)
deriving DecidableEq

/-- Modelled from the spec: (§7) a Link to a deleted page transitions to the
non-fatal, queryable Broken status. -/
inductive LinkStatus where
  | live
  | broken
deriving DecidableEq

/-- Modelled from the spec: (§3) a Link — source rectangle, target, and a
queryable status. -/
structure Link where
  source : Rect
  target : LinkTarget
  status : LinkStatus
deriving DecidableEq

/-- Modelled from the spec: (§3, glossary) an interactive form widget. -/
structure Widget where
  fieldType : Nat
  fieldName : String
  rect : Rect
  value : String
deriving DecidableEq

/-- Modelled from the spec: (§6) a TOC entry `{level ≥ 1, title, pageIndex}`. -/
structure TocEntry where
  level : Nat
  title : String
  pageIndex : Nat
deriving DecidableEq

/-- Modelled from the spec: (§3) security descriptor — user/owner secrets
and a permission bitset. -/
structure Security where
  userSecret : String
  ownerSecret : String
  permissions : Nat
deriving DecidableEq

/-- Modelled from the spec: (§3) a Page — geometry, rotation, ordered content
items (paint order = list order), links and form widgets. -/
structure Page where
  width : Int
  height : Int
  rotation : Int
  items : List ContentItem
  links : List Link
  widgets : List Widget
deriving DecidableEq

/-- Modelled from the spec: (§3) a Document — ordered pages (index =
position), metadata mapping, TOC entries and an optional security
descriptor. -/
structure Document where
  pages : List Page
  metadata : List (String × String)
  toc : List TocEntry
  security : Option Security
deriving DecidableEq

/-- Modelled from the spec: (§7) the error taxonomy. -/
inductive PdfError where
  | outOfRange
  | invalidArgument
  | malformedStream
  | needsAuthentication
  | authenticationFailed
deriving DecidableEq

/-! ## Structural page operations with link maintenance -/

/-- Modelled from the spec: (§4.1) link maintenance — apply a link update to
every link of a page. -/
def Page.mapLinks (f : Link → Link) (p : Page) : Page :=
  { p with links := p.links.map f }

/-- Modelled from the spec: (§4.1) re-point internal link targets through an
index map, preserving everything else. -/
def Link.repoint (f : Nat → Nat) (l : Link) : Link :=
  match l.target with
  | .page t => { l with target := .page (f t) }
  | .uri _ => l

/-- Modelled from the spec: (§4.1) index shift applied to surviving page
references when a page is inserted at index `k`. -/
def insertShift (k t : Nat) : Nat :=
  if k ≤ t then t + 1 else t

/-- Modelled from the spec: (§4.1) index shift applied to surviving page
references when the page at index `k` is deleted (meaningful for `t ≠ k`). -/
def deleteShift (k t : Nat) : Nat :=
  if t < k then t else t - 1

/-- Modelled from the spec: (§4.1, §7) link update when the page at index `k`
is deleted — a link targeting `k` becomes Broken (kept, not removed); targets
above `k` shift down. -/
def Link.markDeleted (k : Nat) (l : Link) : Link :=
  match l.target with
  | .page t =>
      if t = k then { l with status := .broken }
      else if k < t then { l with target := .page (t - 1) }
      else l
  | .uri _ => l

/-- Modelled from the spec: (§4.1) the new index of the page formerly at index
`p` after moving the page at index `f` to index `t`. -/
def moveIndexMap (f t p : Nat) : Nat :=
  if p = f then t
  else if f < t then (if f < p ∧ p ≤ t then p - 1 else p)
  else if t < f then (if t ≤ p ∧ p < f then p + 1 else p)
  else p

/-- Modelled from the spec: (§4.1) `newDocument()` — empty, zero pages. -/
def newDocument : Document := ⟨[], [], [], none⟩

/-- Modelled from the spec: (§4.1) a fresh blank page of the given geometry
(rotation 0, no content). -/
def newPage (w h : Int) : Page := ⟨w, h, 0, [], [], []⟩

/-- Modelled from the spec: (§4.1) insert a blank page at index `k`
(`k = length` appends); all internal link targets at or above `k` are
re-pointed one up. -/
def addPageAt (d : Document) (w h : Int) (k : Nat) : Except PdfError Document :=
  if k ≤ d.pages.length then
    .ok { d with pages :=
      ((d.pages.map (Page.mapLinks (Link.repoint (insertShift k)))).insertIdx k (newPage w h)) }
  else .error .outOfRange

/-- Modelled from the spec: (§4.1) `addPage(doc, width, height, atIndex?)`;
`atIndex` defaults to append. -/
def addPage (d : Document) (w h : Int) (atIndex : Option Nat) : Except PdfError Document :=
  addPageAt d w h (atIndex.getD d.pages.length)

/-- Modelled from the spec: (§4.1) `removePage(doc, index)` — validates the
index, shifts the later pages down and updates every link: targets of the
deleted page become Broken, later targets are re-pointed down by one. -/
def removePage (d : Document) (k : Nat) : Except PdfError Document :=
  if k < d.pages.length then
    .ok { d with pages := (d.pages.eraseIdx k).map (Page.mapLinks (Link.markDeleted k)) }
  else .error .outOfRange

/-- Modelled from the spec: (§4.1) `movePage(doc, from, to)` — validates both
indices, re-orders the page list and re-points every internal link target
through `moveIndexMap`. -/
def movePage (d : Document) (f t : Nat) : Except PdfError Document :=
  if h : f < d.pages.length ∧ t < d.pages.length then
    .ok { d with pages :=
      (((d.pages.map (Page.mapLinks (Link.repoint (moveIndexMap f t)))).eraseIdx f).insertIdx t
        (Page.mapLinks (Link.repoint (moveIndexMap f t)) (d.pages.get ⟨f, h.1⟩))) }
  else .error .outOfRange

/-- Modelled from the spec: (§4.1) `copyPage(doc, from, toEnd)` — copies the
page at `from` to the end of the document. -/
def copyPage (d : Document) (f : Nat) : Except PdfError Document :=
  if h : f < d.pages.length then
    .ok { d with pages := d.pages ++ [d.pages.get ⟨f, h⟩] }
  else .error .outOfRange

/-- Modelled from the spec: (§3, §4.1) the four legal right-angle rotation
values. -/
def validRotation (r : Int) : Bool :=
  r = 0 || r = 90 || r = 180 || r = 270

/-- Modelled from the spec: (§4.1) mutating a page's rotation only accepts
the four right-angle values; other values fail with InvalidArgument. -/
def setRotation (p : Page) (r : Int) : Except PdfError Page :=
  if validRotation r then .ok { p with rotation := r }
  else .error .invalidArgument

/-! ## Mutation log -/

/-- Modelled from the spec: (§3, §4.2) a Mutation is an operation
{kind, target page, payload} queued against a page; kinds Insert, Delete,
Move, Rotate, Redact, SetMetadata, SetTOC.  Mutations are not visible in
the COM until committed. -/
inductive Mutation where
  | insertItem (item : ContentItem)
  | deletePage
  | movePageTo (dest : Nat)
  | rotateTo (deg : Int)
  | redact (box : Rect) (fill : Color)
  | setMetadata (entries : List (String × String))
  | setTOC (entries : List TocEntry)
deriving DecidableEq

/-- List helper: apply a function to the element at index `i` (no-op when out
of range). -/
def updateAt : List α → Nat → (α → α) → List α
  | [], _, _ => []
  | a :: l, 0, f => f a :: l
  | a :: l, i + 1, f => a :: updateAt l i f

/-- Modelled from the spec: (§3) append one content item at the top of a
page's paint order (paint order = insertion order). -/
def Page.appendItem (it : ContentItem) (p : Page) : Page :=
  { p with items := p.items ++ [it] }

/-- Modelled from the spec: (§4.2, §7) apply one mutation, staged against page
`i`, to the document; validation failures are reported as errors and produce
no document. -/
def applyMutation (d : Document) (i : Nat) (m : Mutation) : Except PdfError Document :=
  if hi : i < d.pages.length then
    match m with
    | .insertItem it => .ok { d with pages := updateAt d.pages i (Page.appendItem it) }
    | .deletePage => removePage d i
    | .movePageTo t => movePage d i t
    | .rotateTo r =>
        match setRotation (d.pages.get ⟨i, hi⟩) r with
        | .ok p' => .ok { d with pages := updateAt d.pages i (fun _ => p') }
        | .error e => .error e
    | .redact box c =>
        .ok { d with pages := updateAt d.pages i (Page.appendItem (.redactionMark box c)) }
    | .setMetadata entries => .ok { d with metadata := entries }
    | .setTOC entries => .ok { d with toc := entries }
  else .error .outOfRange

/-- Modelled from the spec: (§4.2) the staged, uncommitted mutations, in
staging order, each tagged with the page it was staged against. -/
abbrev MutationLog : Type := List (Nat × Mutation)

/-- Modelled from the spec: (§7) CommitAborted reports the failing mutation's
page, its position in that page's pending queue, and the reason. -/
structure CommitAbort where
  pageIdx : Nat
  position : Nat
  reason : PdfError
deriving DecidableEq

/-- Modelled from the spec: (§4.2) the pending queue of page `i` — the staged
mutations against `i`, in insertion order. -/
def pageQueue (log : MutationLog) (i : Nat) : List Mutation :=
  (List.filter (fun e => e.1 == i) log).map Prod.snd

/-- Modelled from the spec: (§4.2) commit applies staged mutations in page
order, then per-page insertion order; this lists them with their queue
positions. -/
def orderedQueue (d : Document) (log : MutationLog) : List (Nat × Nat × Mutation) :=
  (List.range d.pages.length).flatMap
    (fun i => (pageQueue log i).enum.map (fun e => (i, e.1, e.2)))

/-- Modelled from the spec: (§4.2, §7) apply an ordered queue of mutations
sequentially; the first validation failure aborts the whole run, naming the
failing entry. -/
def commitApply : Document → List (Nat × Nat × Mutation) → Except CommitAbort Document
  | d, [] => .ok d
  | d, (i, k, m) :: rest =>
      match applyMutation d i m with
      | .ok d' => commitApply d' rest
      | .error e => .error ⟨i, k, e⟩

/-- Modelled from the spec: (§4.2) `commit(doc)` applies all staged mutations
across all pages in a single logical step; all-or-nothing. -/
def commit (d : Document) (log : MutationLog) : Except CommitAbort Document :=
  commitApply d (orderedQueue d log)

/-- Modelled from the spec: (§4.2) a document together with its staged
mutation log. -/
abbrev DocSession : Type := Document × MutationLog

/-- Modelled from the spec: (§4.2) `stage(page, mutation)` appends to that
page's pending queue; the document state itself is untouched. -/
def stageS (s : DocSession) (i : Nat) (m : Mutation) : DocSession :=
  (s.1, s.2 ++ [(i, m)])

/-- Modelled from the spec: (§4.2, §7) observable result of calling commit on
a session — on success the new document with an emptied log, on abort the
untouched pre-commit session plus the CommitAborted report. -/
def commitS (s : DocSession) : DocSession × Option CommitAbort :=
  match commit s.1 s.2 with
  | .ok d' => ((d', []), none)
  | .error e => (s, some e)

/-- Modelled from the spec: (§4.2) `rollback(doc)` discards all staged,
uncommitted mutations. -/
def rollbackS (s : DocSession) : DocSession :=
  (s.1, [])

/-! ## Redaction / apply engine -/

/-- Modelled from the spec: (§3, §4.3) the pending RedactionMarks of a page,
in paint order. -/
def Page.pendingMarks (p : Page) : List (Rect × Color) :=
  p.items.filterMap (fun it =>
    match it with
    | .redactionMark box c => some (box, c)
    | _ => none)

/-- Modelled from the spec: (§4.3) effect of one redaction mark rectangle on
one other content item — full containment deletes the item, partial overlap
replaces it with a clipped remainder except that text runs are removed
entirely, and a non-overlapping item is unaffected. -/
def redactOne (m : Rect) (it : ContentItem) : Option ContentItem :=
  if Rect.containsRect m it.bbox then none
  else if Rect.intersects m it.bbox then
    match it with
    | .textRun _ _ _ _ _ => none
    | .shapeStroke b st path _ => some (.shapeStroke b st path (some (Rect.inter m b)))
    | .annot b st sub _ => some (.annot b st sub (some (Rect.inter m b)))
    | .redactionMark _ _ => some it
  else some it

/-- Modelled from the spec: (§4.3) the fully opaque fill style used for an
applied redaction mark's cover shape. -/
def fillStyle (c : Color) : Style := ⟨c, c, 0, 1⟩

/-- Modelled from the spec: (§3, §4.3) the opaque fill shape that replaces an
applied redaction mark at the top of paint order. -/
def markFill (box : Rect) (c : Color) : ContentItem :=
  .shapeStroke box (fillStyle c) "redaction-fill" none

/-- Modelled from the spec: (§4.3) `applyRedactions(page) -> AppliedCount`.
Every pending mark is resolved against every other content item; the marks
are then replaced by opaque fill shapes at the top of paint order, and the
number of applied marks is returned. -/
def applyRedactions (p : Page) : Page × Nat :=
  let marks := p.pendingMarks
  let kept := p.items.filter (fun it => ! it.isMark)
  let redacted := marks.foldl (fun acc mc => acc.filterMap (redactOne mc.1)) kept
  ({ p with items := redacted ++ marks.map (fun mc => markFill mc.1 mc.2) }, marks.length)

/-! ## Serializer and authentication state machine -/

/-- Modelled from the spec: (§4.4) persisted record of one content item — the
tagged variant flattened into one implementation-defined row. -/
structure ItemRec where
  tag : Nat
  box : Rect
  style : Style
  text : String
  font : String
  size : Nat
  clip : Option Rect
  fill : Color
deriving DecidableEq

/-- Modelled from the spec: (§4.4, §6) persisted record of one link
descriptor. -/
structure LinkRec where
  tag : Nat
  source : Rect
  address : String
  pageIndex : Nat
  isBroken : Bool
deriving DecidableEq

/-- Modelled from the spec: (§4.4) persisted record of one page. -/
structure PageRec where
  width : Int
  height : Int
  rotation : Int
  items : List ItemRec
  links : List LinkRec
  widgets : List Widget
deriving DecidableEq

/-- Modelled from the spec: (§4.4, §6) the persisted page-structured stream —
pages, metadata, TOC and, when present, the security descriptor as an opaque
header. -/
structure ByteStream where
  pages : List PageRec
  metadata : List (String × String)
  toc : List TocEntry
  security : Option Security
deriving DecidableEq

/-- Modelled from the spec: (§4.4) default style for persisted rows whose
variant carries none. -/
def defaultStyle : Style := ⟨⟨0, 0, 0⟩, ⟨0, 0, 0⟩, 1, 1⟩

/-- Modelled from the spec: (§4.4) flatten one content item into its persisted
row (the encoding itself is implementation-defined). -/
def encodeItem : ContentItem → ItemRec
  | .textRun b st text font sz => ⟨0, b, st, text, font, sz, none, ⟨0, 0, 0⟩⟩
  | .shapeStroke b st path clip => ⟨1, b, st, path, "", 0, clip, ⟨0, 0, 0⟩⟩
  | .annot b st sub clip => ⟨2, b, st, sub, "", 0, clip, ⟨0, 0, 0⟩⟩
  | .redactionMark b c => ⟨3, b, defaultStyle, "", "", 0, none, c⟩

/-- Modelled from the spec: (§4.4, §6) read one persisted row back into a
content item; unknown tags are malformed. -/
def decodeItem (e : ItemRec) : Option ContentItem :=
  if e.tag = 0 then some (.textRun e.box e.style e.text e.font e.size)
  else if e.tag = 1 then some (.shapeStroke e.box e.style e.text e.clip)
  else if e.tag = 2 then some (.annot e.box e.style e.text e.clip)
  else if e.tag = 3 then some (.redactionMark e.box e.fill)
  else none

/-- Modelled from the spec: (§7) whether a link status is the queryable Broken
status. -/
def LinkStatus.isBroken : LinkStatus → Bool
  | .broken => true
  | .live => false

/-- Modelled from the spec: (§4.4) link status read back from its persisted
flag. -/
def statusOfFlag (b : Bool) : LinkStatus :=
  if b then .broken else .live

/-- Modelled from the spec: (§4.4, §6) flatten one link descriptor into its
persisted row. -/
def encodeLink (l : Link) : LinkRec :=
  match l.target with
  | .uri a => ⟨0, l.source, a, 0, l.status.isBroken⟩
  | .page t => ⟨1, l.source, "", t, l.status.isBroken⟩

/-- Modelled from the spec: (§4.4, §6) read one persisted link row back. -/
def decodeLink (e : LinkRec) : Option Link :=
  if e.tag = 0 then some ⟨e.source, .uri e.address, statusOfFlag e.isBroken⟩
  else if e.tag = 1 then some ⟨e.source, .page e.pageIndex, statusOfFlag e.isBroken⟩
  else none

/-- Modelled from the spec: (§4.4, §6) decode a whole persisted list, failing
(MalformedStream at the caller) if any element fails. -/
def decodeList (f : α → Option β) : List α → Option (List β)
  | [] => some []
  | x :: xs =>
      match f x, decodeList f xs with
      | some y, some ys => some (y :: ys)
      | _, _ => none

/-- Modelled from the spec: (§4.4) flatten one page into its persisted
record. -/
def encodePage (p : Page) : PageRec :=
  ⟨p.width, p.height, p.rotation, p.items.map encodeItem, p.links.map encodeLink, p.widgets⟩

/-- Modelled from the spec: (§4.4) read one persisted page record back. -/
def decodePage (e : PageRec) : Option Page :=
  match decodeList decodeItem e.items, decodeList decodeLink e.links with
  | some items, some links => some ⟨e.width, e.height, e.rotation, items, links, e.widgets⟩
  | _, _ => none

/-- Modelled from the spec: (§4.4) `save(doc)` flattens the COM into a
persisted stream; the security descriptor, when present, becomes an opaque
header. -/
def save (d : Document) : ByteStream :=
  ⟨d.pages.map encodePage, d.metadata, d.toc, d.security⟩

/-- Modelled from the spec: (§4.4) states of the save/authenticate flow. -/
inductive DocState where
  | unlocked
  | lockedNoSecret
  | lockedWithSecret
deriving DecidableEq

/-- Modelled from the spec: (§4.4) a document as produced by `load`, together
with its authentication state. -/
structure LoadedDoc where
  doc : Document
  state : DocState
deriving DecidableEq

/-- Modelled from the spec: (§4.4, §6) `load(stream)` — fails with
MalformedStream on structurally invalid input; an unencrypted stream loads
Unlocked, an encrypted one loads LockedNoSecret. -/
def load (s : ByteStream) : Except PdfError LoadedDoc :=
  match decodeList decodePage s.pages with
  | none => .error .malformedStream
  | some pages =>
      .ok ⟨⟨pages, s.metadata, s.toc, s.security⟩,
           if s.security.isSome then .lockedNoSecret else .unlocked⟩

/-- Modelled from the spec: (§4.4) `authenticate(doc, secret)` — from
LockedNoSecret, a secret matching the user or owner credential unlocks the
document; any other secret leaves it LockedNoSecret and reports
AuthenticationFailed.  In any other state the call is a no-op. -/
def authenticate (ld : LoadedDoc) (secret : String) : LoadedDoc × Option PdfError :=
  match ld.state, ld.doc.security with
  | .lockedNoSecret, some sec =>
      if secret = sec.userSecret || secret = sec.ownerSecret then
        ({ ld with state := .unlocked }, none)
      else (ld, some .authenticationFailed)
  | _, _ => (ld, none)

/-! ## The LangChain quickstart module's key check -/

/-- Outcome of running the quickstart module's top level: either a raised
ValueError with its message, or execution proceeding to agent construction
with the value written to os.environ. -/
inductive ModuleResult where
  | raised (msg : String)
  | proceeded (envValue : String)
deriving DecidableEq

/-- Python truthiness of a string: the empty string is falsy. -/
def pyTruthy (s : String) : Bool := !(s == "")

/-- Embeds src/LangChain/quickstart_basic_agent.py lines 9-15: the module
reads OPENAI_API_KEY via os.getenv (None when unset), sets the environment
variable when the value is truthy, and otherwise raises ValueError before
the agent is constructed. -/
def quickstartKeyCheck (getenvResult : Option String) : ModuleResult :=
  match getenvResult with
  | some s =>
      if pyTruthy s then .proceeded s
      else .raised "GPT_API not found in .env file"
  | none => .raised "GPT_API not found in .env file"

/-! ## Concrete scenario data -/

/-- A plain black color. -/
def blackColor : Color := ⟨0, 0, 0⟩

/-- Text item used as the sensitive first item of the redaction scenario. -/
def secretItem : ContentItem := .textRun ⟨50, 50, 150, 70⟩ defaultStyle "top secret" "helv" 12

/-- Text item used as the untouched second item of the redaction scenario. -/
def publicItem : ContentItem := .textRun ⟨50, 200, 150, 220⟩ defaultStyle "public" "helv" 12

/-- Redaction mark rectangle covering exactly the first item's bounding
box. -/
def markRect : Rect := ⟨50, 50, 150, 70⟩

/-- Page with two non-overlapping text items and one pending redaction mark
covering only the first item's bounding box. -/
def redactScenarioPage : Page :=
  ⟨595, 842, 0, [secretItem, publicItem, .redactionMark markRect blackColor], [], []⟩

/-- One-page document used for the commit-abort scenario. -/
def c2Doc : Document := ⟨[newPage 595 842], [], [], none⟩

/-- First staged mutation of the commit-abort scenario (valid). -/
def c2m1 : Mutation := .insertItem secretItem

/-- Second staged mutation of the commit-abort scenario: a Move to an
out-of-range index (invalid). -/
def c2m2 : Mutation := .movePageTo 99

/-- Third staged mutation of the commit-abort scenario (valid). -/
def c2m3 : Mutation := .rotateTo 90

/-- The log obtained by staging the three mutations in order against
page 0. -/
def c2Log : MutationLog := [(0, c2m1), (0, c2m2), (0, c2m3)]

/-- The session after staging the three mutations. -/
def c2Session : DocSession := (c2Doc, c2Log)

/-- The "Hello" text item inserted at (50,50) in the create-and-round-trip
scenario. -/
def helloItem : ContentItem := .textRun ⟨50, 50, 150, 70⟩ defaultStyle "Hello" "helv" 20

/-- The document after `addPage(595,842)` on a new document. -/
def c9Doc0 : Document := ⟨[newPage 595 842], [], [], none⟩

/-- The document after committing the staged insert of the "Hello" item. -/
def c9Doc1 : Document := ⟨[⟨595, 842, 0, [helloItem], [], []⟩], [], [], none⟩

/-- Security descriptor of the encryption scenario (user and owner secrets
as in the PyMuPDF script's encryption example). -/
def c5Sec : Security := ⟨"user123", "owner456", 6⟩

/-- One-page encrypted document. -/
def c5Doc : Document := ⟨[newPage 595 842], [], [], some c5Sec⟩

/-- Result of loading the saved encrypted document: locked, no secret
supplied yet. -/
def c5Locked : LoadedDoc := ⟨c5Doc, .lockedNoSecret⟩

/-- An internal link on page 0 of the link-maintenance scenario, targeting
page 1. -/
def c6Link : Link := ⟨⟨50, 90, 250, 110⟩, .page 1, .live⟩

/-- Two-page document whose first page holds an internal link to page 1. -/
def c6Doc : Document :=
  ⟨[⟨595, 842, 0, [], [c6Link], []⟩, newPage 595 842], [], [], none⟩

/-- Two-page document used for the move-to-self scenario. -/
def c8Doc : Document := ⟨[newPage 3 4, newPage 5 6], [], [], none⟩

/-- A page with one text item and no pending redaction marks. -/
def c4Page : Page := ⟨595, 842, 0, [publicItem], [], []⟩

/-! ## Helper lemmas -/

theorem map_eq_self_of (f : α → α) (l : List α) (h : ∀ a ∈ l, f a = a) : l.map f = l := by
  induction l with
  | nil => rfl
  | cons a l ih =>
      simp only [List.map_cons, List.cons.injEq]
      exact ⟨h a (List.mem_cons_self a l), ih (fun b hb => h b (List.mem_cons_of_mem a hb))⟩

theorem getElem?_insertIdx_lt :
    ∀ (l : List α) (a : α) (k j : Nat), j < k → (l.insertIdx k a)[j]? = l[j]? := by
  intro l
  induction l with
  | nil =>
      intro a k j hj
      match k, hj with
      | m + 1, _ => rfl
  | cons b l ih =>
      intro a k j hj
      match k, hj with
      | m + 1, hj =>
          rw [List.insertIdx_succ_cons]
          match j with
          | 0 => simp
          | i + 1 =>
              simp only [List.getElem?_cons_succ]
              exact ih a m i (Nat.lt_of_succ_lt_succ hj)

theorem getElem?_insertIdx_self :
    ∀ (l : List α) (a : α) (k : Nat), k ≤ l.length → (l.insertIdx k a)[k]? = some a := by
  intro l
  induction l with
  | nil =>
      intro a k hk
      match k, hk with
      | 0, _ => rfl
  | cons b l ih =>
      intro a k hk
      match k with
      | 0 => simp
      | m + 1 =>
          rw [List.insertIdx_succ_cons]
          simp only [List.getElem?_cons_succ]
          exact ih a m (Nat.le_of_succ_le_succ hk)

theorem getElem?_insertIdx_ge :
    ∀ (l : List α) (a : α) (k j : Nat), k ≤ j → k ≤ l.length →
      (l.insertIdx k a)[j + 1]? = l[j]? := by
  intro l
  induction l with
  | nil =>
      intro a k j hkj hk
      match k, hk with
      | 0, _ => rfl
  | cons b l ih =>
      intro a k j hkj hk
      match k with
      | 0 => simp
      | m + 1 =>
          rw [List.insertIdx_succ_cons]
          match j, hkj with
          | i + 1, hkj =>
              simp only [List.getElem?_cons_succ]
              exact ih a m i (Nat.le_of_succ_le_succ hkj) (Nat.le_of_succ_le_succ hk)

theorem insertIdx_eraseIdx_get :
    ∀ (l : List α) (i : Nat) (h : i < l.length),
      (l.eraseIdx i).insertIdx i (l.get ⟨i, h⟩) = l := by
  intro l
  induction l with
  | nil => intro i h; exact absurd h (Nat.not_lt_zero i)
  | cons a l ih =>
      intro i h
      match i with
      | 0 => rfl
      | m + 1 =>
          show (a :: l.eraseIdx m).insertIdx (m + 1) (l.get ⟨m, _⟩) = a :: l
          rw [List.insertIdx_succ_cons]
          exact congrArg (a :: ·) (ih m (Nat.lt_of_succ_lt_succ h))

theorem moveIndexMap_self (i p : Nat) : moveIndexMap i i p = p := by
  by_cases hp : p = i
  · simp [moveIndexMap, hp]
  · simp [moveIndexMap, hp]

theorem repoint_eq_self (f : Nat → Nat) (l : Link) (h : ∀ t, f t = t) :
    Link.repoint f l = l := by
  obtain ⟨src, tgt, st⟩ := l
  cases tgt with
  | uri a => rfl
  | page t => simp [Link.repoint, h t]

theorem mapLinks_eq_self (f : Link → Link) (p : Page) (h : ∀ l, f l = l) :
    Page.mapLinks f p = p := by
  obtain ⟨w, ht, rot, items, links, widgets⟩ := p
  simp only [Page.mapLinks]
  rw [map_eq_self_of f links (fun l _ => h l)]

/-! ## Claim theorems -/

/-- Claim C7: setting a page's rotation succeeds exactly when the value is
one of {0, 90, 180, 270}; every other value fails with InvalidArgument and
leaves the page unchanged (no page is produced). -/
theorem c7_rotation_validation (p : Page) (r : Int) :
    ((∃ p', setRotation p r = .ok p') ↔ (r = 0 ∨ r = 90 ∨ r = 180 ∨ r = 270))
    ∧ (validRotation r = true → setRotation p r = .ok { p with rotation := r })
    ∧ (validRotation r = false → setRotation p r = .error .invalidArgument) := by
  refine ⟨⟨?_, ?_⟩, ?_, ?_⟩
  · intro ⟨p', hp'⟩
    by_cases hv : validRotation r = true
    · simpa only [validRotation, Bool.or_eq_true, decide_eq_true_eq, or_assoc] using hv
    · rw [setRotation, if_neg hv] at hp'
      exact absurd hp' (by simp)
  · intro hr
    have hv : validRotation r = true := by
      simp only [validRotation, Bool.or_eq_true, decide_eq_true_eq, or_assoc]
      exact hr
    exact ⟨{ p with rotation := r }, by rw [setRotation, if_pos hv]⟩
  · intro hv
    rw [setRotation, if_pos hv]
  · intro hv
    rw [setRotation, if_neg (by simp [hv])]

/-- Witness for C7 at a concrete page: 90 is accepted, 45 is rejected. -/
theorem c7_rotation_validation_witness :
    setRotation (newPage 10 10) 90 = .ok { newPage 10 10 with rotation := 90 }
    ∧ setRotation (newPage 10 10) 45 = .error .invalidArgument :=
  ⟨(c7_rotation_validation (newPage 10 10) 90).2.1 (by decide),
   (c7_rotation_validation (newPage 10 10) 45).2.2 (by decide)⟩

/-- Claim C9 (concrete create/commit/round-trip scenario): starting from a
new empty document, addPage(595,842) yields the one-page document; staging
an Insert of the "Hello" text item at (50,50) and committing yields page 0
with exactly that one content item; saving and loading reproduces it. -/
theorem c9_insert_commit_roundtrip :
    addPage newDocument 595 842 none = .ok c9Doc0
    ∧ commitS (stageS (c9Doc0, []) 0 (.insertItem helloItem)) = ((c9Doc1, []), none)
    ∧ c9Doc1.pages.map Page.items = [[helloItem]]
    ∧ helloItem.bbox.x0 = 50 ∧ helloItem.bbox.y0 = 50
    ∧ load (save c9Doc1) = .ok ⟨c9Doc1, .unlocked⟩
    ∧ (Except.map (fun ld => ld.doc.pages.map Page.items) (load (save c9Doc1)))
        = .ok [[helloItem]] := by
  refine ⟨rfl, ?_, rfl, rfl, rfl, ?_, ?_⟩ <;> rfl

/-- Claim C10 counterexample: with OPENAI_API_KEY set to the empty string,
the module raises ValueError rather than proceeding — the claim's "if it is
set, execution proceeds" fails at this input. -/
theorem c10_counterexample :
    quickstartKeyCheck (some "") = .raised "GPT_API not found in .env file"
    ∧ quickstartKeyCheck (some "") ≠ .proceeded "" := by
  refine ⟨rfl, ?_⟩
  intro h
  exact absurd h (by decide)

/-- Claim C10 (amended): if OPENAI_API_KEY is unset, or set to the empty
string, module execution raises ValueError with message "GPT_API not found
in .env file" before the agent is constructed; if it is set to a non-empty
value, execution proceeds and os.environ receives exactly the value that
was read. -/
theorem c10_env_key_check (o : Option String) :
    (o = none → quickstartKeyCheck o = .raised "GPT_API not found in .env file")
    ∧ (o = some "" → quickstartKeyCheck o = .raised "GPT_API not found in .env file")
    ∧ (∀ s, o = some s → s ≠ "" → quickstartKeyCheck o = .proceeded s) := by
  refine ⟨?_, ?_, ?_⟩
  · intro h; rw [h]; rfl
  · intro h; rw [h]; rfl
  · intro s h hs
    rw [h]
    have ht : pyTruthy s = true := by
      simp only [pyTruthy, Bool.not_eq_true', beq_eq_false_iff_ne, ne_eq]
      exact hs
    simp [quickstartKeyCheck, ht]

/-- Witness for C10's amended theorem at concrete inputs. -/
theorem c10_env_key_check_witness :
    quickstartKeyCheck none = .raised "GPT_API not found in .env file"
    ∧ quickstartKeyCheck (some "sk-abc") = .proceeded "sk-abc" :=
  ⟨(c10_env_key_check none).1 rfl,
   (c10_env_key_check (some "sk-abc")).2.2 "sk-abc" rfl (by decide)⟩

theorem pendingMarks_nil_iff (p : Page) :
    p.pendingMarks = [] ↔ ∀ it ∈ p.items, it.isMark = false := by
  simp only [Page.pendingMarks, List.filterMap_eq_nil_iff]
  refine forall_congr' fun it => imp_congr_right fun _ => ?_
  cases it <;> simp [ContentItem.isMark]

theorem redactOne_not_mark {m : Rect} {it it' : ContentItem} (h : it.isMark = false)
    (h2 : redactOne m it = some it') : it'.isMark = false := by
  unfold redactOne at h2
  by_cases hc : Rect.containsRect m it.bbox = true
  · rw [if_pos hc] at h2
    exact absurd h2 (by simp)
  · rw [if_neg hc] at h2
    by_cases hi : Rect.intersects m it.bbox = true
    · rw [if_pos hi] at h2
      cases it with
      | textRun b st t f s => exact absurd h2 (by simp)
      | shapeStroke b st pa cl => injection h2 with h3; rw [← h3]; rfl
      | annot b st sub cl => injection h2 with h3; rw [← h3]; rfl
      | redactionMark b c => exact absurd h (by simp [ContentItem.isMark])
    · rw [if_neg hi] at h2
      injection h2 with h3
      rw [← h3]
      exact h

theorem foldl_filterMap_not_mark :
    ∀ (marks : List (Rect × Color)) (l : List ContentItem),
      (∀ it ∈ l, it.isMark = false) →
      ∀ it' ∈ marks.foldl (fun acc mc => acc.filterMap (redactOne mc.1)) l,
        it'.isMark = false := by
  intro marks
  induction marks with
  | nil => intro l h it' h'; exact h it' h'
  | cons mc marks ih =>
      intro l h it' h'
      rw [List.foldl_cons] at h'
      refine ih (l.filterMap (redactOne mc.1)) ?_ it' h'
      intro x hx
      obtain ⟨y, hy, hxy⟩ := List.mem_filterMap.mp hx
      exact redactOne_not_mark (h y hy) hxy

/-- Claim C4: applyRedactions is idempotent — a page with zero pending marks
returns AppliedCount 0 and is left unchanged, and a second call with no new
marks staged in between returns 0 and leaves the page unchanged (the
operation is total, so it has no failure mode). -/
theorem c4_apply_redactions_idempotent (p : Page) :
    (p.pendingMarks = [] → applyRedactions p = (p, 0))
    ∧ applyRedactions (applyRedactions p).1 = ((applyRedactions p).1, 0) := by
  have base : ∀ q : Page, q.pendingMarks = [] → applyRedactions q = (q, 0) := by
    intro q hq
    have hall : ∀ it ∈ q.items, it.isMark = false := (pendingMarks_nil_iff q).mp hq
    have hfilter : q.items.filter (fun it => ! it.isMark) = q.items := by
      rw [List.filter_eq_self]
      intro a ha
      rw [hall a ha]
      rfl
    simp only [applyRedactions, hq, List.foldl_nil, List.map_nil, List.length_nil,
      List.append_nil, hfilter]
  refine ⟨base p, ?_⟩
  have hres : (applyRedactions p).1.pendingMarks = [] := by
    rw [pendingMarks_nil_iff]
    intro it hit
    simp only [applyRedactions] at hit
    rw [List.mem_append] at hit
    cases hit with
    | inl h1 =>
        refine foldl_filterMap_not_mark _ _ ?_ it h1
        intro x hx
        have hx2 := (List.mem_filter.mp hx).2
        simpa using hx2
    | inr h2 =>
        obtain ⟨mc, hmc, hform⟩ := List.mem_map.mp h2
        rw [← hform]
        rfl
  exact base _ hres

/-- Witness for C4 at a concrete mark-free page. -/
theorem c4_apply_redactions_idempotent_witness :
    applyRedactions c4Page = (c4Page, 0) :=
  (c4_apply_redactions_idempotent c4Page).1 rfl

/-- Claim C3: applyRedactions deletes every content item fully contained in
a pending mark's rectangle, replaces a partially overlapped shape or
annotation with a clipped remainder, removes a partially overlapped text run
entirely, leaves non-overlapping items unaffected; and on the concrete page
with two non-overlapping text items and a mark covering only the first
item's bounding box, the first item is removed, the second is unchanged and
AppliedCount is 1. -/
theorem c3_redaction_semantics :
    (∀ (m : Rect) (it : ContentItem),
        Rect.containsRect m it.bbox = true → redactOne m it = none)
    ∧ (∀ (m b : Rect) (st : Style) (text font : String) (sz : Nat),
        Rect.containsRect m b = false → Rect.intersects m b = true →
          redactOne m (.textRun b st text font sz) = none)
    ∧ (∀ (m b : Rect) (st : Style) (path : String) (clip : Option Rect),
        Rect.containsRect m b = false → Rect.intersects m b = true →
          redactOne m (.shapeStroke b st path clip)
            = some (.shapeStroke b st path (some (Rect.inter m b))))
    ∧ (∀ (m b : Rect) (st : Style) (sub : String) (clip : Option Rect),
        Rect.containsRect m b = false → Rect.intersects m b = true →
          redactOne m (.annot b st sub clip)
            = some (.annot b st sub (some (Rect.inter m b))))
    ∧ (∀ (m : Rect) (it : ContentItem),
        Rect.containsRect m it.bbox = false → Rect.intersects m it.bbox = false →
          redactOne m it = some it)
    ∧ applyRedactions redactScenarioPage
        = ({ redactScenarioPage with items := [publicItem, markFill markRect blackColor] }, 1) := by
  refine ⟨?_, ?_, ?_, ?_, ?_, ?_⟩
  · intro m it hc
    unfold redactOne
    rw [if_pos hc]
  · intro m b st text font sz hc hi
    simp [redactOne, ContentItem.bbox, hc, hi]
  · intro m b st path clip hc hi
    simp [redactOne, ContentItem.bbox, hc, hi]
  · intro m b st sub clip hc hi
    simp [redactOne, ContentItem.bbox, hc, hi]
  · intro m it hc hi
    unfold redactOne
    rw [if_neg (by simp [hc]), if_neg (by simp [hi])]
  · rfl

/-- Witness for C3: the fully covered concrete item is deleted. -/
theorem c3_redaction_semantics_witness :
    redactOne markRect secretItem = none :=
  c3_redaction_semantics.1 markRect secretItem (by decide)

/-- Claim C2: commit is all-or-nothing — staging never changes the document,
an aborted commit returns the untouched pre-commit session and reports
CommitAborted with the failing mutation's position, a failing mutation
aborts the whole remaining queue at its recorded position, and in the
concrete scenario of three staged mutations whose second is an
out-of-range Move, commit leaves the document exactly as before staging and
names position 1 (the second mutation) in page 0's queue. -/
theorem c2_commit_all_or_nothing :
    (∀ (s : DocSession) (i : Nat) (m : Mutation), (stageS s i m).1 = s.1)
    ∧ (∀ (s : DocSession) (e : CommitAbort),
        commit s.1 s.2 = .error e → commitS s = (s, some e))
    ∧ (∀ (d : Document) (i k : Nat) (m : Mutation)
        (rest : List (Nat × Nat × Mutation)) (e : PdfError),
        applyMutation d i m = .error e →
          commitApply d ((i, k, m) :: rest) = .error ⟨i, k, e⟩)
    ∧ (∀ (d d' : Document) (i k : Nat) (m : Mutation)
        (rest : List (Nat × Nat × Mutation)),
        applyMutation d i m = .ok d' →
          commitApply d ((i, k, m) :: rest) = commitApply d' rest)
    ∧ c2Session = stageS (stageS (stageS (c2Doc, []) 0 c2m1) 0 c2m2) 0 c2m3
    ∧ c2Log[1]? = some (0, c2m2)
    ∧ commitS c2Session = ((c2Doc, c2Log), some ⟨0, 1, .outOfRange⟩) := by
  refine ⟨fun s i m => rfl, ?_, ?_, ?_, rfl, rfl, ?_⟩
  · intro s e h
    unfold commitS
    rw [h]
  · intro d i k m rest e h
    simp only [commitApply]
    rw [h]
  · intro d d' i k m rest h
    simp only [commitApply]
    rw [h]
  · rfl

/-- Witness for C2: the invalid Move aborts a queue at its recorded
position. -/
theorem c2_commit_all_or_nothing_witness :
    commitApply c2Doc [(0, 1, c2m2)] = .error ⟨0, 1, .outOfRange⟩ :=
  c2_commit_all_or_nothing.2.2.1 c2Doc 0 1 c2m2 [] .outOfRange rfl

theorem decodeItem_encodeItem (it : ContentItem) : decodeItem (encodeItem it) = some it := by
  cases it <;> rfl

theorem decodeLink_encodeLink (l : Link) : decodeLink (encodeLink l) = some l := by
  obtain ⟨src, tgt, st⟩ := l
  cases tgt <;> cases st <;> rfl

theorem decodeList_map (f : β → Option α) (g : α → β) (h : ∀ x, f (g x) = some x) :
    ∀ l : List α, decodeList f (l.map g) = some l := by
  intro l
  induction l with
  | nil => rfl
  | cons x xs ih => simp only [List.map_cons, decodeList, h x, ih]

theorem decodePage_encodePage (p : Page) : decodePage (encodePage p) = some p := by
  obtain ⟨w, h, rot, items, links, widgets⟩ := p
  simp only [encodePage, decodePage,
    decodeList_map decodeItem encodeItem decodeItem_encodeItem,
    decodeList_map decodeLink encodeLink decodeLink_encodeLink]

theorem load_save (d : Document) :
    load (save d) = .ok ⟨d, if d.security.isSome then .lockedNoSecret else .unlocked⟩ := by
  obtain ⟨pages, md, toc, sec⟩ := d
  simp only [save, load, decodeList_map decodePage encodePage decodePage_encodePage]

/-- Claim C1: load(save(doc)) reproduces the document's page count, every
page's geometry, rotation and content items in original paint order, the
metadata keys, the TOC entries and the Links (content equivalence of the
reloaded document, not byte identity of the stream). -/
theorem c1_save_load_roundtrip (d : Document) :
    ∃ ld, load (save d) = .ok ld
      ∧ ld.doc.pages.length = d.pages.length
      ∧ ld.doc.pages.map (fun p => (p.width, p.height)) = d.pages.map (fun p => (p.width, p.height))
      ∧ ld.doc.pages.map Page.rotation = d.pages.map Page.rotation
      ∧ ld.doc.pages.map Page.items = d.pages.map Page.items
      ∧ ld.doc.metadata.map Prod.fst = d.metadata.map Prod.fst
      ∧ ld.doc.toc = d.toc
      ∧ ld.doc.pages.map Page.links = d.pages.map Page.links :=
  ⟨⟨d, if d.security.isSome then .lockedNoSecret else .unlocked⟩, load_save d,
    rfl, rfl, rfl, rfl, rfl, rfl, rfl⟩

/-- Claim C5: loading an encrypted stream yields LockedNoSecret, and from
LockedNoSecret authenticate(secret) reaches Unlocked exactly when the
secret matches the user or owner credential; otherwise the state stays
LockedNoSecret and AuthenticationFailed is reported; no transition other
than these two outcomes is possible and the document content is never
altered by authenticate. -/
theorem c5_auth_state_machine :
    (∀ (s : ByteStream) (ld : LoadedDoc),
        load s = .ok ld → s.security.isSome = true → ld.state = .lockedNoSecret)
    ∧ (∀ (ld : LoadedDoc) (sec : Security) (secret : String),
        ld.state = .lockedNoSecret → ld.doc.security = some sec →
          (((authenticate ld secret).1.state = .unlocked)
              ↔ (secret = sec.userSecret ∨ secret = sec.ownerSecret))
          ∧ ((secret = sec.userSecret ∨ secret = sec.ownerSecret) →
              authenticate ld secret = ({ ld with state := .unlocked }, none))
          ∧ (¬(secret = sec.userSecret ∨ secret = sec.ownerSecret) →
              authenticate ld secret = (ld, some .authenticationFailed))
          ∧ ((authenticate ld secret).1.state = .unlocked
              ∨ (authenticate ld secret).1.state = .lockedNoSecret)
          ∧ (authenticate ld secret).1.doc = ld.doc) := by
  constructor
  · intro s ld hld hsec
    cases hdec : decodeList decodePage s.pages with
    | none =>
        simp only [load, hdec] at hld
        exact Except.noConfusion hld
    | some pages =>
        simp only [load, hdec] at hld
        injection hld with h1
        rw [← h1]
        simp [hsec]
  · intro ld sec secret hstate hsec
    obtain ⟨doc, state⟩ := ld
    replace hstate : state = .lockedNoSecret := hstate
    subst hstate
    obtain ⟨pg, md, tc, secOpt⟩ := doc
    replace hsec : secOpt = some sec := hsec
    subst hsec
    have hmaster : authenticate ⟨⟨pg, md, tc, some sec⟩, .lockedNoSecret⟩ secret =
        (if secret = sec.userSecret ∨ secret = sec.ownerSecret then
          ({ LoadedDoc.mk ⟨pg, md, tc, some sec⟩ .lockedNoSecret with state := .unlocked }, none)
        else (⟨⟨pg, md, tc, some sec⟩, .lockedNoSecret⟩, some .authenticationFailed)) := by
      by_cases hu : secret = sec.userSecret
      · simp [authenticate, hu]
      · by_cases ho : secret = sec.ownerSecret
        · simp [authenticate, hu, ho]
        · simp [authenticate, hu, ho]
    refine ⟨?_, ?_, ?_, ?_, ?_⟩
    · rw [hmaster]
      by_cases hm : secret = sec.userSecret ∨ secret = sec.ownerSecret
      · simp [hm]
      · simp [hm]
    · intro hm
      rw [hmaster, if_pos hm]
    · intro hm
      rw [hmaster, if_neg hm]
    · rw [hmaster]
      by_cases hm : secret = sec.userSecret ∨ secret = sec.ownerSecret
      · rw [if_pos hm]; exact Or.inl rfl
      · rw [if_neg hm]; exact Or.inr rfl
    · rw [hmaster]
      by_cases hm : secret = sec.userSecret ∨ secret = sec.ownerSecret
      · rw [if_pos hm]
      · rw [if_neg hm]

/-- Witness for C5 on the concrete encrypted document: loading yields
LockedNoSecret, the user secret unlocks, a wrong secret fails. -/
theorem c5_auth_state_machine_witness :
    c5Locked.state = .lockedNoSecret
    ∧ authenticate c5Locked "user123" = ({ c5Locked with state := .unlocked }, none)
    ∧ authenticate c5Locked "wrong" = (c5Locked, some .authenticationFailed) :=
  ⟨c5_auth_state_machine.1 (save c5Doc) c5Locked (load_save c5Doc) rfl,
   (c5_auth_state_machine.2 c5Locked c5Sec "user123" rfl rfl).2.1 (Or.inl rfl),
   (c5_auth_state_machine.2 c5Locked c5Sec "wrong" rfl rfl).2.2.1 (by decide)⟩

/-- Claim C8: moving a page onto its own index is a no-op — for every valid
index i, movePage(doc, i, i) returns the document unchanged. -/
theorem c8_move_page_self_noop (d : Document) (i : Nat) (h : i < d.pages.length) :
    movePage d i i = .ok d := by
  have hid : ∀ l : Link, Link.repoint (moveIndexMap i i) l = l :=
    fun l => repoint_eq_self _ l (moveIndexMap_self i)
  have hpg : ∀ p : Page, Page.mapLinks (Link.repoint (moveIndexMap i i)) p = p :=
    fun p => mapLinks_eq_self _ p hid
  have hmap : d.pages.map (Page.mapLinks (Link.repoint (moveIndexMap i i))) = d.pages :=
    map_eq_self_of _ _ (fun p _ => hpg p)
  unfold movePage
  rw [dif_pos ⟨h, h⟩, hmap, hpg, insertIdx_eraseIdx_get d.pages i h]

/-- Witness for C8 at a concrete two-page document. -/
theorem c8_move_page_self_noop_witness :
    movePage c8Doc 1 1 = .ok c8Doc :=
  c8_move_page_self_noop c8Doc 1 (by decide)

theorem getElem?_eraseIdx_deleteShift (P : List α) (k j : Nat) (hj : j ≠ k) :
    (P.eraseIdx k)[deleteShift k j]? = P[j]? := by
  by_cases h : j < k
  · rw [deleteShift, if_pos h]
    exact List.getElem?_eraseIdx_of_lt P k j h
  · rw [deleteShift, if_neg h]
    rw [List.getElem?_eraseIdx_of_ge P k (j - 1) (by omega)]
    have hj1 : j - 1 + 1 = j := by omega
    rw [hj1]

theorem moveIndexMap_cases (f t j : Nat) (hjf : j ≠ f) :
    (deleteShift f j < t → moveIndexMap f t j = deleteShift f j)
    ∧ (t ≤ deleteShift f j → moveIndexMap f t j = deleteShift f j + 1) := by
  unfold moveIndexMap deleteShift
  constructor <;> intro h <;> split_ifs at h ⊢ <;> omega

theorem getElem?_move (P : List α) (f t : Nat) (hf : f < P.length) (ht : t < P.length)
    (x : α) (hx : P[f]? = some x) (j : Nat) (hj : j < P.length) :
    ((P.eraseIdx f).insertIdx t x)[moveIndexMap f t j]? = P[j]? := by
  have hQlen : (P.eraseIdx f).length = P.length - 1 := List.length_eraseIdx_of_lt hf
  by_cases hjf : j = f
  · subst hjf
    rw [show moveIndexMap j t j = t from by simp [moveIndexMap]]
    rw [getElem?_insertIdx_self _ _ t (by omega)]
    exact hx.symm
  · have hQ : (P.eraseIdx f)[deleteShift f j]? = P[j]? := getElem?_eraseIdx_deleteShift P f j hjf
    by_cases hqt : deleteShift f j < t
    · rw [(moveIndexMap_cases f t j hjf).1 hqt, getElem?_insertIdx_lt _ _ t _ hqt, hQ]
    · rw [(moveIndexMap_cases f t j hjf).2 (by omega)]
      rw [getElem?_insertIdx_ge _ _ t _ (by omega) (by omega), hQ]

theorem repoint_page_target (f : Nat → Nat) (l : Link) (t : Nat) (h : l.target = .page t) :
    Link.repoint f l = { l with target := .page (f t) } := by
  obtain ⟨src, tgt, st⟩ := l
  replace h : tgt = .page t := h
  subst h
  rfl

theorem repoint_status (f : Nat → Nat) (l : Link) : (Link.repoint f l).status = l.status := by
  obtain ⟨src, tgt, st⟩ := l
  cases tgt <;> rfl

/-- Claim C6: after every structural page operation (insert, delete, move),
each internal Link whose target page still exists is re-pointed to that
page's new index — the page list and the link targets are shifted by the
same index map, and the mapped index is always in range (never dangling) —
while a Link whose target page was deleted transitions to Broken and is
kept (reported, not removed). -/
theorem c6_link_maintenance :
    (∀ (d : Document) (k : Nat), k < d.pages.length →
      ∃ d', removePage d k = .ok d'
        ∧ d'.pages.length + 1 = d.pages.length
        ∧ (∀ j, j ≠ k → j < d.pages.length →
            d'.pages[deleteShift k j]?
              = (d.pages[j]?).map (Page.mapLinks (Link.markDeleted k)))
        ∧ (∀ j, j ≠ k → j < d.pages.length → deleteShift k j < d'.pages.length)
        ∧ (∀ p : Page, (Page.mapLinks (Link.markDeleted k) p).links.length = p.links.length)
        ∧ (∀ (l : Link) (t : Nat), l.target = .page t →
              (t = k → Link.markDeleted k l = { l with status := .broken })
            ∧ (t ≠ k → Link.markDeleted k l = { l with target := .page (deleteShift k t) })))
    ∧ (∀ (d : Document) (w h : Int) (k : Nat), k ≤ d.pages.length →
      ∃ d', addPageAt d w h k = .ok d'
        ∧ d'.pages.length = d.pages.length + 1
        ∧ d'.pages[k]? = some (newPage w h)
        ∧ (∀ j, j < d.pages.length →
            d'.pages[insertShift k j]?
              = (d.pages[j]?).map (Page.mapLinks (Link.repoint (insertShift k))))
        ∧ (∀ j, j < d.pages.length → insertShift k j < d'.pages.length)
        ∧ (∀ (l : Link) (t : Nat), l.target = .page t →
            Link.repoint (insertShift k) l = { l with target := .page (insertShift k t) })
        ∧ (∀ l : Link, (Link.repoint (insertShift k) l).status = l.status))
    ∧ (∀ (d : Document) (f t : Nat), f < d.pages.length → t < d.pages.length →
      ∃ d', movePage d f t = .ok d'
        ∧ d'.pages.length = d.pages.length
        ∧ (∀ j, j < d.pages.length →
            d'.pages[moveIndexMap f t j]?
              = (d.pages[j]?).map (Page.mapLinks (Link.repoint (moveIndexMap f t))))
        ∧ (∀ j, j < d.pages.length → moveIndexMap f t j < d'.pages.length)
        ∧ (∀ (l : Link) (p : Nat), l.target = .page p →
            Link.repoint (moveIndexMap f t) l
              = { l with target := .page (moveIndexMap f t p) })) := by
  refine ⟨?_, ?_, ?_⟩
  · -- delete
    intro d k hk
    refine ⟨{ d with pages :=
        (d.pages.eraseIdx k).map (Page.mapLinks (Link.markDeleted k)) }, ?_, ?_, ?_, ?_, ?_, ?_⟩
    · unfold removePage
      rw [if_pos hk]
    · simp only [List.length_map]
      rw [List.length_eraseIdx_of_lt hk]
      omega
    · intro j hjk hj
      simp only [List.getElem?_map]
      rw [getElem?_eraseIdx_deleteShift d.pages k j hjk]
    · intro j hjk hj
      simp only [List.length_map]
      rw [List.length_eraseIdx_of_lt hk]
      unfold deleteShift
      split_ifs <;> omega
    · intro p
      simp [Page.mapLinks]
    · intro l t ht
      obtain ⟨src, tgt, st⟩ := l
      replace ht : tgt = .page t := ht
      subst ht
      constructor
      · intro htk
        simp [Link.markDeleted, htk]
      · intro htk
        simp only [Link.markDeleted, deleteShift]
        split_ifs <;> first | rfl | (exfalso; omega)
  · -- insert
    intro d w h k hk
    have hd' : addPageAt d w h k = .ok { d with pages :=
        (d.pages.map (Page.mapLinks (Link.repoint (insertShift k)))).insertIdx k (newPage w h) } := by
      unfold addPageAt
      rw [if_pos hk]
    refine ⟨_, hd', ?_, ?_, ?_, ?_, ?_, ?_⟩
    · rw [List.length_insertIdx k _ (by simpa using hk)]
      simp
    · exact getElem?_insertIdx_self _ _ k (by simpa using hk)
    · intro j hj
      by_cases hjk : j < k
      · rw [show insertShift k j = j from by unfold insertShift; rw [if_neg (by omega)]]
        rw [getElem?_insertIdx_lt _ _ k j hjk, List.getElem?_map]
      · have hkj : k ≤ j := by omega
        rw [show insertShift k j = j + 1 from by unfold insertShift; rw [if_pos hkj]]
        rw [getElem?_insertIdx_ge _ _ k j hkj (by simpa using hk), List.getElem?_map]
    · intro j hj
      rw [List.length_insertIdx k _ (by simpa using hk), List.length_map]
      unfold insertShift
      split_ifs <;> omega
    · intro l t ht
      exact repoint_page_target _ l t ht
    · intro l
      exact repoint_status _ l
  · -- move
    intro d f t hf ht
    have hd' : movePage d f t = .ok { d with pages :=
        ((d.pages.map (Page.mapLinks (Link.repoint (moveIndexMap f t)))).eraseIdx f).insertIdx t (Page.mapLinks (Link.repoint (moveIndexMap f t)) (d.pages.get ⟨f, hf⟩)) } := by
      unfold movePage
      rw [dif_pos ⟨hf, ht⟩]
    refine ⟨_, hd', ?_, ?_, ?_, ?_⟩
    · have hQlen :
          ((d.pages.map (Page.mapLinks (Link.repoint (moveIndexMap f t)))).eraseIdx f).length
            = d.pages.length - 1 := by
        rw [List.length_eraseIdx_of_lt (by simpa using hf), List.length_map]
      rw [List.length_insertIdx t _ (by omega), hQlen]
      omega
    · intro j hj
      have hx : (d.pages.map (Page.mapLinks (Link.repoint (moveIndexMap f t))))[f]?
          = some (Page.mapLinks (Link.repoint (moveIndexMap f t)) (d.pages.get ⟨f, hf⟩)) := by
        rw [List.getElem?_map, List.getElem?_eq_getElem hf]
        rfl
      rw [getElem?_move _ f t (by simpa using hf) (by simpa using ht) _ hx j (by simpa using hj)]
      rw [List.getElem?_map]
    · intro j hj
      have hQlen :
          ((d.pages.map (Page.mapLinks (Link.repoint (moveIndexMap f t)))).eraseIdx f).length
            = d.pages.length - 1 := by
        rw [List.length_eraseIdx_of_lt (by simpa using hf), List.length_map]
      rw [List.length_insertIdx t _ (by omega), hQlen]
      unfold moveIndexMap
      split_ifs <;> omega
    · intro l p hp
      exact repoint_page_target _ l p hp

/-- Witness for C6: deleting page 1 of the concrete two-page document breaks
its internal link, which is kept on the surviving page. -/
theorem c6_link_maintenance_witness :
    Link.markDeleted 1 c6Link = { c6Link with status := .broken }
    ∧ (∃ d', removePage c6Doc 1 = .ok d' ∧ d'.pages.length + 1 = c6Doc.pages.length) := by
  constructor
  · exact ((c6_link_maintenance.1 c6Doc 1 (by decide)).choose_spec.2.2.2.2.2
      c6Link 1 rfl).1 rfl
  · obtain ⟨d', h1, h2, _⟩ := c6_link_maintenance.1 c6Doc 1 (by decide)
    exact ⟨d', h1, h2⟩
